import Mathlib

/-!
Verification of the custom Arduino serial monitor core: the line framer and
reader loop embedded in `SerialManager.StartReading`, the `SerialManager`
connection lifecycle (`StartReading`, `Disconnect`, `stopReader`), and the
CSV export engine (`ExportCSV`).  Bytes are modelled as natural numbers
(line feed = 10, carriage return = 13), instants as integers, channels as
identifiers together with a closed-set, and the goroutine interleavings of
the manager as an explicit transition system whose atomic steps are the
lock-held critical sections of the Go source.
-/

namespace SerialMonitor

/-! ## LineFramer

Model of the line-extraction loop inside the reader goroutine of
`StartReading`: the accumulated buffer is repeatedly split at the first
line-feed byte; each extracted candidate line drops one trailing
carriage-return byte; the consumed prefix and the terminator are removed. -/

/-- Strip of the trailing carriage return from a candidate line, as done by
the goroutine before emitting: one trailing byte 13 is dropped when present
(the source checks the last byte of the non-empty candidate only). -/
def stripCR (line : List Nat) : List Nat :=
  if line.getLast? = some 13 then line.dropLast else line

/-- The extraction loop over the accumulator: `cur` holds the bytes of the
current candidate line scanned so far (the part of the buffer before the
next line feed).  At a line-feed byte the candidate is emitted (with a
trailing carriage return stripped) and scanning restarts; bytes left at the
end of the buffer are the retained accumulator. -/
def framerRun (cur : List Nat) : List Nat → List (List Nat) × List Nat
  | [] => ([], cur)
  | b :: rest =>
    if b = 10 then
      let p := framerRun [] rest
      (stripCR cur :: p.1, p.2)
    else
      framerRun (cur ++ [b]) rest

/-- One full run of the extraction loop on an accumulator buffer: the
complete lines extracted, and the leftover unterminated bytes that remain
buffered. -/
def extractLines (buf : List Nat) : List (List Nat) × List Nat :=
  framerRun [] buf

/-- A whole reader-session at the framing level: each read chunk is appended
to the carried partial buffer and all complete lines are extracted; the
first component is every line emitted over the session, the second the
partial buffer held when the reader exits (which the goroutine drops on
return — it is never emitted). -/
def readerSession (partialBuf : List Nat) : List (List Nat) → List (List Nat) × List Nat
  | [] => ([], partialBuf)
  | c :: cs =>
    let p := extractLines (partialBuf ++ c)
    let q := readerSession p.2 cs
    (p.1 ++ q.1, q.2)

/-! ## Reader iteration and error handling

One iteration of the reader goroutine loop: check the stop signal, perform
one read, frame any returned bytes into lines and emit them (each send
race-checks the stop signal), then inspect a read error against the stop
signal: suppressed if stop was requested, otherwise published once on the
single-slot error channel. -/

/-- How the reader goroutine leaves one loop iteration. -/
inductive IterExit where
  /-- Loop continues with the new partial buffer. -/
  | next (partialBuf : List Nat)
  /-- Clean termination: the stop signal was observed; nothing published. -/
  | stopped
  /-- Faulted termination: a real device error was published. -/
  | faulted
  deriving DecidableEq, Repr

/-- Result of one iteration: the lines sent on the line channel, the errors
sent on the error channel, and how the iteration ended. -/
structure IterResult where
  emitted : List (List Nat)
  published : List Nat
  exit : IterExit
  deriving DecidableEq, Repr

/-- One loop iteration of the reader goroutine, translated from the loop
body in `StartReading`.  `stopAtTop`, `stopDuringSend` and `stopAtErrCheck`
are the values the three `select` checks of the stop signal observe (the
signal is one-shot, raised concurrently by `stopReader`).  `bytes` and
`errCode` are what `port.Read` returned this iteration (`n > 0` bytes are
processed before the error is inspected). -/
def readerIteration (stopAtTop stopDuringSend stopAtErrCheck : Bool)
    (partialBuf bytes : List Nat) (errCode : Option Nat) : IterResult :=
  if stopAtTop then
    { emitted := [], published := [], exit := .stopped }
  else
    let p := extractLines (partialBuf ++ bytes)
    if stopDuringSend ∧ p.1 ≠ [] then
      -- a send's select observed the closed stop channel: return early
      { emitted := [], published := [], exit := .stopped }
    else
      match errCode with
      | none => { emitted := p.1, published := [], exit := .next p.2 }
      | some e =>
        if stopAtErrCheck then
          { emitted := p.1, published := [], exit := .stopped }
        else
          { emitted := p.1, published := [e], exit := .faulted }

/-! ## SerialManager

The manager state.  One-shot channels (`stopCh`, `doneCh`, and each
goroutine's line channel) are modelled as identifiers drawn from `nextId`,
with `closedIds` the set of identifiers that have been closed.  `readers`
holds the reader goroutines that have been launched and have not yet
returned; each captured its own done/line channel identifiers and the
device handle at launch, but re-reads the manager's `stopCh` field at every
check — exactly as the Go closure does. -/

/-- A live reader goroutine: its captured `doneCh` and line-channel
identifiers and the `port` value captured at `StartReading` time. -/
structure Reader where
  doneId : Nat
  lineChId : Nat
  handle : Option Nat
  deriving DecidableEq, Repr

/-- The `SerialManager` struct together with the channel bookkeeping and the
set of live reader goroutines.  `waiting` records a `stopReader` caller
parked (outside the lock) on the given done-channel identifier. -/
structure SM where
  port : Option Nat
  portName : String
  baudRate : Int
  running : Bool
  stopCh : Option Nat
  doneCh : Option Nat
  closedIds : List Nat
  nextId : Nat
  readers : List Reader
  waiting : Option Nat
  deriving DecidableEq, Repr

/-- What `StartReading` hands back to the caller: whether each returned
channel is already closed, whether any value is buffered in the line
channel, and whether a reader goroutine was launched. -/
structure StartResult where
  chClosed : Bool
  errChClosed : Bool
  chEmpty : Bool
  spawned : Bool
  deriving DecidableEq, Repr

/-- The single critical section of `StartReading`: under the lock, if a
reader is already running the fresh channels are closed and returned;
otherwise fresh stop/done signals are allocated, the reader is marked
running, the port is captured, and (after unlocking) the goroutine is
launched.  No branch inspects `port`. -/
def startReadingStep (s : SM) : SM × StartResult :=
  if s.running then
    (s, { chClosed := true, errChClosed := true, chEmpty := true, spawned := false })
  else
    ({ s with
        stopCh := some s.nextId
        doneCh := some (s.nextId + 1)
        running := true
        nextId := s.nextId + 3
        readers := s.readers ++ [⟨s.nextId + 1, s.nextId + 2, s.port⟩] },
     { chClosed := false, errChClosed := false, chEmpty := true, spawned := true })

/-- The first, lock-held half of `stopReader`: if no reader is running it is
a no-op; otherwise the stop channel is closed, the done channel to wait on
is saved, `running` is set to `false`, and the lock is released.  Returns
the done identifier the caller must wait on (`none` when no wait happens). -/
def stopReaderBegin (s : SM) : SM × Option Nat :=
  if s.running then
    ({ s with
        closedIds := (match s.stopCh with
          | some i => i :: s.closedIds
          | none => s.closedIds)
        running := false },
     s.doneCh)
  else
    (s, none)

/-- A reader goroutine returning: `defer close(sm.doneCh)` and
`defer close(ch)` close the identifiers it captured at launch, and the
goroutine leaves the live set. -/
def readerExit (s : SM) (d : Nat) : SM :=
  match s.readers.find? (fun r => r.doneId == d) with
  | some r =>
    { s with
        readers := s.readers.filter (fun r2 => ¬ r2.doneId = d)
        closedIds := d :: r.lineChId :: s.closedIds }
  | none => s

/-- The device read the reader goroutine performs through its captured
handle.  `port.Read` on the nil interface held when no device was ever
connected dereferences nil and panics; on a real handle the call dispatches
to the device. -/
inductive ReadAttempt where
  | panicNilHandle
  | dispatched (h : Nat)
  deriving DecidableEq, Repr

/-- `port.Read(buf)` dispatch on the handle captured at launch. -/
def attemptRead (handle : Option Nat) : ReadAttempt :=
  match handle with
  | none => .panicNilHandle
  | some h => .dispatched h

/-- `Disconnect` run to completion sequentially (no interleaved calls): the
`stopReader` wait is resolved by the reader with the awaited done channel
observing the closed stop signal and exiting; afterwards the port is closed
and cleared.  The second component records whether the call had to wait on
a done channel at all. -/
def disconnectSeq (s : SM) : SM × Bool :=
  let p := stopReaderBegin s
  match p.2 with
  | none => ({ p.1 with port := none }, false)
  | some d =>
    if d ∈ p.1.closedIds then
      ({ p.1 with port := none }, true)
    else
      ({ readerExit p.1 d with port := none }, true)

/-- Interleaved actions on the manager: each constructor is one atomic step
(a lock-held critical section, or one reader-goroutine step).  A
`disconnect` whose `stopReader` must wait parks in `SM.waiting` and is
resumed by `disconnectResume` once the awaited done channel is closed. -/
inductive Act where
  | startReading
  | disconnect
  | disconnectResume
  /-- The reader goroutine with captured done id `d` runs its
  `select` on the manager's current `stopCh` field: if that channel is
  closed the goroutine returns, otherwise nothing changes. -/
  | readerCheckStop (d : Nat)
  deriving DecidableEq, Repr

/-- One interleaved step. -/
def stepAct (s : SM) (a : Act) : SM :=
  match a with
  | .startReading => (startReadingStep s).1
  | .disconnect =>
    let p := stopReaderBegin s
    match p.2 with
    | none => { p.1 with port := none }
    | some d =>
      if d ∈ p.1.closedIds then { p.1 with port := none }
      else { p.1 with waiting := some d }
  | .disconnectResume =>
    match s.waiting with
    | some d =>
      if d ∈ s.closedIds then { s with waiting := none, port := none }
      else s
    | none => s
  | .readerCheckStop d =>
    if (s.readers.find? (fun r => r.doneId == d)).isSome then
      match s.stopCh with
      | some i => if i ∈ s.closedIds then readerExit s d else s
      | none => s
    else s

/-- Run a list of interleaved steps. -/
def runTrace (s : SM) (acts : List Act) : SM :=
  acts.foldl stepAct s

/-- The manager state right after a successful `Connect`: a device handle is
held, no reader is running. -/
def connectedInit : SM :=
  { port := some 0
    portName := "COM3"
    baudRate := 9600
    running := false
    stopCh := none
    doneCh := none
    closedIds := []
    nextId := 1
    readers := []
    waiting := none }

/-- Sequentially well-formed manager states: when a reader is running there
is exactly one live reader goroutine, it owns the manager's current done
channel, that channel is still open and distinct from the present stop
channel; when no reader is running, no reader goroutine is live.  Every
state produced by running the manager operations from `connectedInit`
without interleaving satisfies this. -/
def wf (s : SM) : Bool :=
  if s.running then
    match s.readers with
    | [r] =>
      decide (s.doneCh = some r.doneId) && decide (¬ r.doneId ∈ s.closedIds) &&
      s.stopCh.isSome && decide (¬ s.stopCh = some r.doneId)
    | _ => false
  else decide (s.readers = [])

/-- The manager state right after `Connect` followed by one `StartReading`:
one reader goroutine is live. -/
def runningState : SM :=
  (startReadingStep connectedInit).1

/-- The manager state of a freshly constructed `SerialManager` on which
`Connect` was never called (or whose connect failed): no device handle. -/
def disconnectedInit : SM :=
  { connectedInit with port := none }

/-- The interleaving that overlaps a `StartReading` call with the window in
which `stopReader` (called from `Disconnect`) has released the lock to wait
for the previous reader: start a reader, begin the disconnect (which parks
waiting on the done channel with `running` already reset), then call
`StartReading` again before the first goroutine has taken another step. -/
def c1Trace : List Act :=
  [Act.startReading, Act.disconnect, Act.startReading]

/-- The state reached by `c1Trace` from a connected manager. -/
def c1State : SM :=
  runTrace connectedInit c1Trace

/-! ## ExportEngine

Model of `ExportCSV` from the export source file: instants are integers
(`time.Before` is `<`, `time.After` is `>`), and the CSV file is modelled as
the ordered list of records handed to the CSV writer (one header record
followed by the surviving data records).  File-system failures are outside
the embedding; every modelled path of `ExportCSV` returns success. -/

/-- A single line received from the serial port. -/
structure SerialLine where
  timestamp : Int
  data : String
  deriving DecidableEq, Repr

/-- `CSVExportOptions` from the export source. -/
structure CSVExportOptions where
  filePath : String
  includeTimestamps : Bool
  filterByTime : Bool
  startTime : Int
  endTime : Int
  customHeader : List String
  deriving DecidableEq, Repr

/-- Rendering of `line.Timestamp.Format("2006-01-02 15:04:05.000")`: the Go
layout string is abstracted to an injective rendering of the instant; no
claim depends on the rendered text, only on the field being present. -/
def formatTimestamp (t : Int) : String :=
  toString t

/-- Model of `strings.Split(line.Data, ",")`: the naive comma split of a
character list, splitting around every comma with no quoting awareness
(`strings.Split` on the empty string yields one empty field). -/
def splitCommaAux : List Char → List (List Char)
  | [] => [[]]
  | c :: rest =>
    let r := splitCommaAux rest
    if c = ',' then [] :: r
    else match r with
      | h :: t => (c :: h) :: t
      | [] => [[c]]

/-- Comma split of a string, the field list `ExportCSV` writes for a line. -/
def commaSplit (s : String) : List String :=
  (splitCommaAux s.toList).map (fun cs => String.mk cs)

/-- The loop body of `ExportCSV` for one line: `none` when the time filter
skips the line (`continue`), otherwise the record written — the data split
on commas, with the formatted timestamp prepended when requested. -/
def exportRecord (opts : CSVExportOptions) (line : SerialLine) : Option (List String) :=
  if opts.filterByTime ∧ (line.timestamp < opts.startTime ∨ opts.endTime < line.timestamp) then
    none
  else if opts.includeTimestamps then
    some (formatTimestamp line.timestamp :: commaSplit line.data)
  else
    some (commaSplit line.data)

/-- All records `ExportCSV` hands to the CSV writer, in order: the header
(custom when non-empty, else the default chosen by `IncludeTimestamps`),
then one record per surviving line. -/
def exportCSV (lines : List SerialLine) (opts : CSVExportOptions) : List (List String) :=
  (if opts.customHeader.length > 0 then opts.customHeader
   else if opts.includeTimestamps then ["Timestamp", "Data"]
   else ["Data"])
  :: lines.filterMap (exportRecord opts)

/-! ## Framer lemmas -/

/-- Appending a carriage return and stripping it is the identity. -/
theorem stripCR_append13 (l : List Nat) : stripCR (l ++ [13]) = l := by
  simp [stripCR]

/-- Scanning a line-feed-free block just moves it into the candidate line. -/
theorem framerRun_noLF_append (data : List Nat) (rest cur : List Nat)
    (h : ¬ 10 ∈ data) :
    framerRun cur (data ++ rest) = framerRun (cur ++ data) rest := by
  induction data generalizing cur with
  | nil => simp
  | cons b bs ih =>
    have hb : ¬ b = 10 := fun hb => h (by simp [hb])
    have hbs : ¬ 10 ∈ bs := fun hm => h (List.mem_cons_of_mem _ hm)
    simp [framerRun, hb, ih _ hbs]

/-- A buffer with no line feed yields no lines and is retained whole. -/
theorem framerRun_no_lf (buf cur : List Nat) (h : ¬ 10 ∈ buf) :
    framerRun cur buf = ([], cur ++ buf) := by
  have h2 := framerRun_noLF_append buf [] cur h
  simpa [framerRun] using h2

/-- The leftover of a scan contains no line feed when the initial candidate
does not. -/
theorem framerRun_leftover_no_lf (buf : List Nat) (cur : List Nat)
    (h : ¬ 10 ∈ cur) : ¬ 10 ∈ (framerRun cur buf).2 := by
  induction buf generalizing cur with
  | nil => simpa [framerRun]
  | cons b bs ih =>
    by_cases hb : b = 10
    · subst hb
      simpa [framerRun] using ih [] (by simp)
    · simp only [framerRun, if_neg hb]
      exact ih (cur ++ [b]) (by
        intro hm
        rcases List.mem_append.mp hm with h1 | h1
        · exact h h1
        · exact hb (List.mem_singleton.mp h1).symm)

/-- Scanning a concatenation equals scanning the parts in sequence, carrying
the leftover. -/
theorem framerRun_append (a b cur : List Nat) :
    framerRun cur (a ++ b) =
      ((framerRun cur a).1 ++ (framerRun (framerRun cur a).2 b).1,
       (framerRun (framerRun cur a).2 b).2) := by
  induction a generalizing cur with
  | nil => simp [framerRun]
  | cons x xs ih =>
    by_cases hx : x = 10
    · subst hx
      simp [framerRun, ih]
    · simp [framerRun, hx, ih]

/-- Feeding chunks one read at a time emits exactly the lines of the joined
byte stream, with the same final leftover. -/
theorem readerSession_eq_batch (chunks : List (List Nat)) (pb : List Nat)
    (h : ¬ 10 ∈ pb) :
    readerSession pb chunks = framerRun pb chunks.flatten := by
  induction chunks generalizing pb with
  | nil => simp [readerSession, framerRun]
  | cons c cs ih =>
    have hpc : extractLines (pb ++ c) = framerRun pb c := by
      unfold extractLines
      simpa using framerRun_noLF_append pb c [] h
    have h2 : ¬ 10 ∈ (framerRun pb c).2 := framerRun_leftover_no_lf _ _ h
    simp only [readerSession, hpc, ih _ h2, List.flatten_cons, framerRun_append]

/-! ## Export lemmas -/

/-- The export loop write by write: the surviving lines are those passing
the time filter, each formatted by the comma split with an optional leading
timestamp field. -/
theorem filterMap_exportRecord (lines : List SerialLine) (opts : CSVExportOptions) :
    lines.filterMap (exportRecord opts) =
      (lines.filter (fun l =>
        !(opts.filterByTime &&
          (decide (l.timestamp < opts.startTime) || decide (opts.endTime < l.timestamp))))).map
        (fun l =>
          if opts.includeTimestamps then
            formatTimestamp l.timestamp :: commaSplit l.data
          else commaSplit l.data) := by
  induction lines with
  | nil => rfl
  | cons l ls ih =>
    by_cases hc : opts.filterByTime ∧
        (l.timestamp < opts.startTime ∨ opts.endTime < l.timestamp)
    · have h1 : exportRecord opts l = none := by
        unfold exportRecord
        rw [if_pos hc]
      have h2 : (!(opts.filterByTime &&
          (decide (l.timestamp < opts.startTime) ||
           decide (opts.endTime < l.timestamp)))) = false := by
        obtain ⟨ha, hb⟩ := hc
        rcases hb with hb | hb <;> simp [ha, hb]
      simp only [List.filterMap_cons, List.filter_cons, h1, h2]
      simpa using ih
    · have h1 : exportRecord opts l = some
          (if opts.includeTimestamps then
            formatTimestamp l.timestamp :: commaSplit l.data
          else commaSplit l.data) := by
        unfold exportRecord
        rw [if_neg hc]
        by_cases hts : opts.includeTimestamps <;> simp [hts]
      have h2 : (!(opts.filterByTime &&
          (decide (l.timestamp < opts.startTime) ||
           decide (opts.endTime < l.timestamp)))) = true := by
        by_cases hft : opts.filterByTime
        · have h3 : ¬ (l.timestamp < opts.startTime ∨ opts.endTime < l.timestamp) :=
            fun hb => hc ⟨hft, hb⟩
          push_neg at h3
          simp [hft, not_lt.2 h3.1, not_lt.2 h3.2]
        · simp only [Bool.not_eq_true] at hft
          simp [hft]
      simp only [List.filterMap_cons, List.filter_cons, h1, h2]
      simpa using ih

/-- C2: for every call to `ExportCSV`, a non-empty custom header is written
verbatim as the header row regardless of `IncludeTimestamps`; otherwise the
header is `Timestamp,Data` when `IncludeTimestamps` is set and `Data` when
it is not; and independently of the header, every data row is the comma
split of the line with a formatted-timestamp field prepended exactly when
`IncludeTimestamps` is set. -/
theorem exportCSV_header_rows (lines : List SerialLine) (opts : CSVExportOptions) :
    (¬ opts.customHeader = [] →
      (exportCSV lines opts).head? = some opts.customHeader) ∧
    (opts.customHeader = [] → opts.includeTimestamps = true →
      (exportCSV lines opts).head? = some ["Timestamp", "Data"]) ∧
    (opts.customHeader = [] → opts.includeTimestamps = false →
      (exportCSV lines opts).head? = some ["Data"]) ∧
    (exportCSV lines opts).tail =
      (lines.filter (fun l =>
        !(opts.filterByTime &&
          (decide (l.timestamp < opts.startTime) || decide (opts.endTime < l.timestamp))))).map
        (fun l =>
          if opts.includeTimestamps then
            formatTimestamp l.timestamp :: commaSplit l.data
          else commaSplit l.data) := by
  refine ⟨?_, ?_, ?_, ?_⟩
  · intro h
    have : 0 < opts.customHeader.length := List.length_pos.mpr h
    simp [exportCSV, this]
  · intro h hts
    simp [exportCSV, h, hts]
  · intro h hts
    simp [exportCSV, h, hts]
  · simpa [exportCSV] using filterMap_exportRecord lines opts

/-- Witness for C2 at concrete inputs: a custom header with
`IncludeTimestamps` set is written verbatim, yet the single data row still
carries a leading timestamp field. -/
theorem exportCSV_header_rows_witness :
    (exportCSV [⟨5, "a,b"⟩] ⟨"out.csv", true, false, 0, 0, ["A", "B", "C"]⟩).head? =
      some ["A", "B", "C"] ∧
    (exportCSV [⟨5, "a,b"⟩] ⟨"out.csv", true, false, 0, 0, ["A", "B", "C"]⟩).tail =
      [[formatTimestamp 5, "a", "b"]] := by
  have h := exportCSV_header_rows [⟨5, "a,b"⟩] ⟨"out.csv", true, false, 0, 0, ["A", "B", "C"]⟩
  exact ⟨h.1 (by decide), by rw [h.2.2.2]; rfl⟩

/-- C3: with time filtering enabled, a line survives iff
`startTime ≤ timestamp ∧ timestamp ≤ endTime` (inclusive at both ends); in
particular with `startTime = endTime = T` exactly the lines whose timestamp
equals `T` survive. -/
theorem exportCSV_time_filter (lines : List SerialLine) (opts : CSVExportOptions)
    (hf : opts.filterByTime = true) :
    (exportCSV lines opts).tail =
      (lines.filter (fun l =>
        decide (opts.startTime ≤ l.timestamp) && decide (l.timestamp ≤ opts.endTime))).map
        (fun l =>
          if opts.includeTimestamps then
            formatTimestamp l.timestamp :: commaSplit l.data
          else commaSplit l.data) ∧
    (opts.startTime = opts.endTime →
      (exportCSV lines opts).tail =
        (lines.filter (fun l => decide (l.timestamp = opts.startTime))).map
          (fun l =>
            if opts.includeTimestamps then
              formatTimestamp l.timestamp :: commaSplit l.data
            else commaSplit l.data)) := by
  have base : (exportCSV lines opts).tail = lines.filterMap (exportRecord opts) := by
    simp [exportCSV]
  constructor
  · rw [base, filterMap_exportRecord]
    congr 1
    apply List.filter_congr
    intro l _
    rw [hf]
    by_cases h1 : opts.startTime ≤ l.timestamp <;> by_cases h2 : l.timestamp ≤ opts.endTime <;>
      simp [h1, h2, not_le.mp, lt_of_not_le]
  · intro hT
    rw [base, filterMap_exportRecord]
    congr 1
    apply List.filter_congr
    intro l _
    rw [hf, ← hT]
    by_cases h1 : l.timestamp = opts.startTime
    · simp [h1]
    · simp [h1]
      omega

/-- Witness for C3 at concrete inputs: with `startTime = endTime = 5` only
the line stamped 5 is exported. -/
theorem exportCSV_time_filter_witness :
    (exportCSV [⟨4, "a"⟩, ⟨5, "b"⟩, ⟨6, "c"⟩] ⟨"out.csv", false, true, 5, 5, []⟩).tail =
      [["b"]] := by
  have h := exportCSV_time_filter [⟨4, "a"⟩, ⟨5, "b"⟩, ⟨6, "c"⟩]
    ⟨"out.csv", false, true, 5, 5, []⟩ (by decide)
  rw [h.2 (by decide)]
  rfl

/-- C6: with time filtering enabled and a malformed range
(`endTime < startTime`), `ExportCSV` writes the header and zero data
records, reporting no error. -/
theorem exportCSV_malformed_range (lines : List SerialLine) (opts : CSVExportOptions)
    (hf : opts.filterByTime = true) (hr : opts.endTime < opts.startTime) :
    exportCSV lines opts =
      [if opts.customHeader.length > 0 then opts.customHeader
       else if opts.includeTimestamps then ["Timestamp", "Data"]
       else ["Data"]] := by
  have hall : ∀ l ∈ lines, exportRecord opts l = none := by
    intro l _
    unfold exportRecord
    rw [if_pos]
    exact ⟨hf, by omega⟩
  unfold exportCSV
  rw [List.filterMap_eq_nil_iff.mpr hall]

/-- Witness for C6 at concrete inputs: range `[9, 2]` exports only the
default header. -/
theorem exportCSV_malformed_range_witness :
    exportCSV [⟨5, "x"⟩, ⟨0, "y"⟩] ⟨"out.csv", true, true, 9, 2, []⟩ =
      [["Timestamp", "Data"]] := by
  have h := exportCSV_malformed_range [⟨5, "x"⟩, ⟨0, "y"⟩]
    ⟨"out.csv", true, true, 9, 2, []⟩ (by decide) (by decide)
  rw [h]
  rfl

/-- Counterexample for C4 as frozen: the byte sequence `xdata\r\n` contains
the subsequence `data\r\n` (bytes `100,97,116,97,13,10`), yet the framer
yields the single line `xdata`, not the line `data`. -/
theorem extractLines_embedded_terminator_counterexample :
    ([120, 100, 97, 116, 97, 13, 10] : List Nat) =
      [120] ++ [100, 97, 116, 97] ++ [13, 10] ++ [] ∧
    extractLines [120, 100, 97, 116, 97, 13, 10] = ([[120, 100, 97, 116, 97]], []) ∧
    ¬ [100, 97, 116, 97] ∈ (extractLines [120, 100, 97, 116, 97, 13, 10]).1 := by
  refine ⟨by decide, by decide, by decide⟩

/-- C4 (amended): for a line-feed-free `data` placed at the start of the
stream and terminated by `\r\n`, the framer yields `data` itself (no
trailing CR/LF) as the first line, the consumed prefix and terminator are
removed, and framing continues on the remaining suffix; for an input that
is exactly `data\r\n` the accumulator is empty afterward. -/
theorem extractLines_crlf (data suffix : List Nat) (h : ¬ 10 ∈ data) :
    extractLines (data ++ 13 :: 10 :: suffix) =
      (data :: (extractLines suffix).1, (extractLines suffix).2) ∧
    extractLines (data ++ [13, 10]) = ([data], []) := by
  have key : ∀ suf : List Nat, extractLines (data ++ 13 :: 10 :: suf) =
      (data :: (extractLines suf).1, (extractLines suf).2) := by
    intro suf
    unfold extractLines
    rw [framerRun_noLF_append data (13 :: 10 :: suf) [] h]
    simp [framerRun, stripCR_append13]
  refine ⟨key suffix, ?_⟩
  have h2 := key []
  simpa [extractLines, framerRun] using h2

/-- Witness for C4 (amended) at concrete bytes `ab\r\nc` and `ab\r\n`. -/
theorem extractLines_crlf_witness :
    ¬ (10 : Nat) ∈ [97, 98] ∧
    extractLines ([97, 98] ++ 13 :: 10 :: [99]) = ([[97, 98]], [99]) ∧
    extractLines ([97, 98] ++ [13, 10]) = ([[97, 98]], []) := by
  have h := extractLines_crlf [97, 98] [99] (by decide)
  refine ⟨by decide, ?_, by rw [h.2]⟩
  rw [h.1]
  rfl

/-- C5: on a read that returns an error (after the iteration passed the top
stop check and no send observed a stop), the error is suppressed with a
clean exit iff the stop signal is raised at the error inspection; otherwise
it is published exactly once on the error channel and the task exits
faulted — the outcome depends only on that stop check. -/
theorem readerIteration_error_path (stopAtErrCheck : Bool)
    (partialBuf bytes : List Nat) (e : Nat) :
    readerIteration false false stopAtErrCheck partialBuf bytes (some e) =
      { emitted := (extractLines (partialBuf ++ bytes)).1,
        published := if stopAtErrCheck then [] else [e],
        exit := if stopAtErrCheck then IterExit.stopped else IterExit.faulted } ∧
    ((readerIteration false false stopAtErrCheck partialBuf bytes (some e)).published = []
      ↔ stopAtErrCheck = true) := by
  cases stopAtErrCheck <;> simp [readerIteration]

/-- C7: a byte sequence with no line feed yields zero lines and is retained
whole in the accumulator; a reader session emits exactly the terminated
lines of the joined stream, so the unterminated leftover held at exit is
never emitted as a line. -/
theorem framer_no_terminator (buf : List Nat) (chunks : List (List Nat))
    (h : ¬ 10 ∈ buf) :
    extractLines buf = ([], buf) ∧
    readerSession [] [buf] = ([], buf) ∧
    readerSession [] chunks = extractLines chunks.flatten := by
  refine ⟨?_, ?_, ?_⟩
  · simpa [extractLines] using framerRun_no_lf buf [] h
  · rw [readerSession_eq_batch [buf] [] (by simp)]
    simpa using framerRun_no_lf buf [] h
  · rw [readerSession_eq_batch chunks [] (by simp)]
    rfl

/-- Witness for C7 at concrete bytes: `hi` has no terminator and stays
buffered; a two-chunk session equals batch framing of the joined stream. -/
theorem framer_no_terminator_witness :
    extractLines [104, 105] = ([], [104, 105]) ∧
    readerSession [] [[104, 10], [105]] = extractLines [[104, 10], [105]].flatten := by
  have h := framer_no_terminator [104, 105] [[104, 10], [105]] (by decide)
  exact ⟨h.1, h.2.2⟩

/-! ## SerialManager theorems -/

/-- C8: a `StartReading` call made while a reader is already running returns
a pair of channels that are already closed and hold no values, and changes
nothing: no stop/done signals are allocated, no state is marked, no reader
goroutine is launched. -/
theorem startReading_already_running (s : SM) (h : s.running = true) :
    startReadingStep s =
      (s, { chClosed := true, errChClosed := true, chEmpty := true, spawned := false }) := by
  unfold startReadingStep
  rw [if_pos h]

/-- Witness for C8 at the state with one reader running. -/
theorem startReading_already_running_witness :
    runningState.running = true ∧
    startReadingStep runningState =
      (runningState,
       { chClosed := true, errChClosed := true, chEmpty := true, spawned := false }) :=
  ⟨by decide, startReading_already_running runningState (by decide)⟩

/-- C10: `StartReading` on a manager with no reader running and no device
handle still allocates fresh signals, marks the reader running, launches
the goroutine against the absent handle — whose first device read
dereferences the nil handle — and returns the same open channels as in the
connected case, so nothing at the public interface distinguishes the
missing device. -/
theorem startReading_without_device (s : SM) (h1 : s.running = false)
    (h2 : s.port = none) :
    (startReadingStep s).2 =
      { chClosed := false, errChClosed := false, chEmpty := true, spawned := true } ∧
    (startReadingStep s).1.running = true ∧
    (startReadingStep s).1.stopCh = some s.nextId ∧
    (startReadingStep s).1.doneCh = some (s.nextId + 1) ∧
    (startReadingStep s).1.readers =
      s.readers ++ [{ doneId := s.nextId + 1, lineChId := s.nextId + 2, handle := none }] ∧
    attemptRead (none : Option Nat) = ReadAttempt.panicNilHandle ∧
    (∀ p : Nat, (startReadingStep { s with port := some p }).2 = (startReadingStep s).2) := by
  simp [startReadingStep, h1, h2, attemptRead]

/-- Witness for C10 at the never-connected manager state. -/
theorem startReading_without_device_witness :
    disconnectedInit.running = false ∧ disconnectedInit.port = none ∧
    (startReadingStep disconnectedInit).1.readers =
      [{ doneId := 2, lineChId := 3, handle := none }] ∧
    attemptRead (none : Option Nat) = ReadAttempt.panicNilHandle := by
  have h := startReading_without_device disconnectedInit (by decide) (by decide)
  refine ⟨by decide, by decide, ?_, h.2.2.2.2.2.1⟩
  rw [h.2.2.2.2.1]
  rfl

/-- C1 (failing run): from a connected manager, `StartReading`, then
`Disconnect` up to its lock-released wait (stop closed, `running` already
reset, parked on the old done channel), then an overlapping `StartReading`:
the second call observes `running = false` and launches a second reader
goroutine while the first is still live — two readers on the same device
handle.  Moreover the first reader now selects on the manager's new, open
stop channel so its stop check no longer terminates it, and the parked
`Disconnect` stays blocked. -/
theorem overlapping_startReading_two_readers :
    c1State.readers =
      [{ doneId := 2, lineChId := 3, handle := some 0 },
       { doneId := 5, lineChId := 6, handle := some 0 }] ∧
    c1State.running = true ∧
    c1State.waiting = some 2 ∧
    ¬ (2 : Nat) ∈ c1State.closedIds ∧
    c1State.stopCh = some 4 ∧
    ¬ (4 : Nat) ∈ c1State.closedIds ∧
    stepAct c1State (Act.readerCheckStop 2) = c1State ∧
    stepAct c1State Act.disconnectResume = c1State := by
  refine ⟨by decide, by decide, by decide, by decide, by decide, by decide, by decide, by decide⟩

/-- C9: on a sequentially well-formed state, `Disconnect` clears the device
handle, leaves no reader running and no reader goroutine live, and a second
`Disconnect` immediately after is a no-op that performs no wait. -/
theorem disconnect_idempotent (s : SM) (h : wf s = true) :
    (disconnectSeq s).1.port = none ∧
    (disconnectSeq s).1.running = false ∧
    (disconnectSeq s).1.readers = [] ∧
    disconnectSeq (disconnectSeq s).1 = ((disconnectSeq s).1, false) := by
  by_cases hr : s.running = true
  · unfold wf at h
    rw [if_pos hr] at h
    rcases hreaders : s.readers with _ | ⟨r, _ | ⟨r2, rest2⟩⟩
    · rw [hreaders] at h
      simp at h
    · rw [hreaders] at h
      simp only [Bool.and_eq_true, decide_eq_true_eq] at h
      obtain ⟨⟨⟨hdone, hnotin⟩, hsome⟩, hnestop⟩ := h
      rcases hstop : s.stopCh with _ | i
      · rw [hstop] at hsome
        simp at hsome
      have hnei : ¬ r.doneId = i := by
        intro he
        exact hnestop (by rw [hstop, he])
      have hmem : ¬ r.doneId ∈ i :: s.closedIds := by
        intro hm
        rcases List.mem_cons.mp hm with hm | hm
        · exact hnei hm
        · exact hnotin hm
      have hd : disconnectSeq s =
          ({ s with
              port := none
              running := false
              closedIds := r.doneId :: r.lineChId :: i :: s.closedIds
              readers := [] }, true) := by
        unfold disconnectSeq stopReaderBegin readerExit
        rw [if_pos hr, hstop, hdone, hreaders]
        simp [hmem, hnei]
      rw [hd]
      refine ⟨rfl, rfl, rfl, ?_⟩
      unfold disconnectSeq stopReaderBegin
      simp
    · rw [hreaders] at h
      simp at h
  · simp only [Bool.not_eq_true] at hr
    have hre : s.readers = [] := by
      unfold wf at h
      rw [if_neg (by rw [hr]; simp)] at h
      simpa using h
    have hd : disconnectSeq s = ({ s with port := none }, false) := by
      unfold disconnectSeq stopReaderBegin
      rw [if_neg (by rw [hr]; simp)]
    rw [hd]
    refine ⟨rfl, hr, hre, ?_⟩
    unfold disconnectSeq stopReaderBegin
    simp [hr]

/-- Witness for C9 at the running one-reader state: both the single and the
repeated `Disconnect` land in the cleared state, the second without
waiting. -/
theorem disconnect_idempotent_witness :
    wf runningState = true ∧
    (disconnectSeq runningState).1.port = none ∧
    (disconnectSeq runningState).1.running = false ∧
    (disconnectSeq runningState).1.readers = [] ∧
    disconnectSeq (disconnectSeq runningState).1 =
      ((disconnectSeq runningState).1, false) :=
  ⟨by decide, disconnect_idempotent runningState (by decide)⟩

end SerialMonitor
